import Mathlib

/-!
Verification of the perception-action core of the roblox-forge-scripts
repository against its natural-language specification.

Shallow embedding notes:
* Python `int()` applied to an exact quotient of integers truncates toward
  zero; this is `Int.tdiv`.  Python `//` on integers is floor division,
  `Int.fdiv`.
* Python floats are idealized as exact rationals (`ℚ`).  All float literals
  appearing in the source (`0.625 = 5/8`, `0.5`, `0.2`, `0.1`, `0.02`,
  `0.4`, `0.15`, `0.05`, `0.03`, `0.003`, `0.6`) are carried as the exact
  rationals they denote.
* Wall-clock reads (`time.time()`) and detector measurements (percentiles,
  medians, contour statistics from cv2/numpy) enter each loop tick as
  explicit inputs; the loops' own mutable variables form explicit state
  records, and side effects (SendInput events, sleeps) are collected into
  event lists.
-/

/-- Truncation toward zero of an exact rational, the behaviour of Python's
`int()` on the result of a true division. -/
def pytrunc (q : ℚ) : ℤ := Int.tdiv q.num q.den

/-! ## InputManager (`src/core/input.py`) -/

/-- Virtual-desktop metrics cached by `InputManager._setup_structs` from
`GetSystemMetrics(76..79)`: origin and extent of the virtual screen. -/
structure VirtScreen where
  left : ℤ
  top : ℤ
  width : ℤ
  height : ℤ
deriving DecidableEq, Repr

/-- One axis of `InputManager.screen_to_abs`:
`int((x - self._virt_left) * 65535 / (self._virt_w - 1))`.
Python raises `ZeroDivisionError` when the divisor `extent - 1` is zero,
modelled as `none`. -/
def screenToAbsAxis (origin extent x : ℤ) : Option ℤ :=
  if extent - 1 = 0 then none
  else some (Int.tdiv ((x - origin) * 65535) (extent - 1))

/-- `InputManager.screen_to_abs(x, y)`: converts virtual-desktop pixel
coordinates to the 0–65535 absolute space, one division per axis. -/
def screen_to_abs (v : VirtScreen) (x y : ℤ) : Option (ℤ × ℤ) :=
  match screenToAbsAxis v.left v.width x, screenToAbsAxis v.top v.height y with
  | some ax, some ay => some (ax, ay)
  | _, _ => none

/-- `InputManager.get_abs_coords()`: reads the cursor position `(px, py)`
(`GetCursorPos`, an input here) and applies the same conversion, returning
`(abs_x, abs_y, pt.x, pt.y)`. -/
def get_abs_coords (v : VirtScreen) (px py : ℤ) : Option (ℤ × ℤ × ℤ × ℤ) :=
  (screen_to_abs v px py).map (fun p => (p.1, p.2, px, py))

/-- Events emitted by `InputManager.move_to`: a relative SendInput move or a
`time.sleep`. -/
inductive MoveEv where
  | move (dx dy : ℤ)
  | sleep (t : ℚ)
deriving DecidableEq, Repr

/-- The `i`-th relative step of `move_to` (0-based), per axis:
`int(total * (i + 1) / steps) - int(total * i / steps)`. -/
def moveDelta (total : ℤ) (steps : ℕ) (i : ℕ) : ℤ :=
  Int.tdiv (total * ((i : ℤ) + 1)) steps - Int.tdiv (total * i) steps

/-- `InputManager.move_to(target)`: with the current cursor read, the
displacement is `(dx, dy)`; if both components are below 2 in magnitude the
function returns at once, else it emits `steps` relative moves each followed
by `time.sleep(duration / steps)`. -/
def move_to (dx dy : ℤ) (steps : ℕ) (duration : ℚ) : List MoveEv :=
  if |dx| < 2 ∧ |dy| < 2 then []
  else (List.range steps).flatMap
    (fun i => [MoveEv.move (moveDelta dx steps i) (moveDelta dy steps i),
               MoveEv.sleep (duration / steps)])

/-- The relative moves contained in a `move_to` event trace, in order. -/
def movesOf (evs : List MoveEv) : List (ℤ × ℤ) :=
  evs.filterMap (fun e => match e with
    | MoveEv.move a b => some (a, b)
    | _ => none)

/-! ## ForgeMod activation entrypoints (`src/mods/forge/mod.py`) -/

/-- The activation flags of the five mutually-exclusive-by-intent
activities, plus the mod-level `forge_enabled` and `auto_phase` flags.
`barActive`/`barShaping` are `BarGame.active`/`BarGame.shaping`;
bar-game tracking is "active" when `barActive ∧ ¬barShaping` and shaping
when `barShaping` (as displayed by `ForgeMod._refresh_gui`). -/
structure ModState where
  forgeEnabled : Bool
  autoPhase : Bool
  jiggle : Bool
  barActive : Bool
  barShaping : Bool
  circle : Bool
  autoclick : Bool
deriving DecidableEq, Repr

/-- `BarGame.stop()`: clears both `active` and `shaping`. -/
def stopBarGame (s : ModState) : ModState :=
  { s with barActive := false, barShaping := false }

/-- `ForgeMod._on_node_click(idx, force)`: the four pipeline-node activation
entrypoints (0 smelting jiggle, 1 bar tracking, 2 shaping, 3 ring
detection).  Guarded by `forge_enabled` and, unless forced, by focus;
clears `auto_phase`; each node toggles its own activity, and on activation
stops every other activity (including the autoclicker) first. -/
def onNodeClick (idx : ℕ) (force focused : Bool) (s : ModState) : ModState :=
  if ¬s.forgeEnabled then s
  else if ¬force ∧ ¬focused then s
  else
    let s1 := { s with autoPhase := false }
    if idx = 0 then
      if s1.jiggle then { s1 with jiggle := false }
      else { stopBarGame s1 with circle := false, autoclick := false, jiggle := true }
    else if idx = 1 then
      if s1.barActive ∧ ¬s1.barShaping then stopBarGame s1
      else { s1 with circle := false, jiggle := false, autoclick := false,
                     barShaping := false, barActive := true }
    else if idx = 2 then
      if s1.barShaping then stopBarGame s1
      else { s1 with circle := false, jiggle := false, autoclick := false,
                     barShaping := true, barActive := true }
    else if idx = 3 then
      if s1.circle then { s1 with circle := false }
      else { stopBarGame s1 with jiggle := false, autoclick := false, circle := true }
    else s1

/-- `ForgeMod._toggle_autoclicker(force)`: guarded by focus unless forced,
then `self.autoclicker.toggle()` — which only flips the autoclicker's own
`_active` flag (`Component.toggle` calling `start`/`stop`); no other
activity is stopped. -/
def toggleAutoclicker (force focused : Bool) (s : ModState) : ModState :=
  if ¬force ∧ ¬focused then s
  else if s.autoclick then { s with autoclick := false }
  else { s with autoclick := true }

/-- How many of the five activities {smelting jiggle, bar-game tracking,
shaping, ring detection, autoclick} are currently active. -/
def countActive (s : ModState) : ℕ :=
  (if s.jiggle then 1 else 0) +
  (if s.barActive ∧ ¬s.barShaping then 1 else 0) +
  (if s.barShaping then 1 else 0) +
  (if s.circle then 1 else 0) +
  (if s.autoclick then 1 else 0)

/-! ## BarGame (`src/mods/forge/bar_game.py`) -/

/-- Input events dispatched by one `BarGame._loop` iteration.  `down`/`up`
are mouse-button events at the current cursor position; `downAt`/`upAt`
carry the screen coordinates of the shaping-phase click (the code converts
them through `screen_to_abs` before `send_mouse`). -/
inductive BEvent where
  | down
  | up
  | downAt (x y : ℤ)
  | upAt (x y : ℤ)
  | sleep (t : ℚ)
deriving DecidableEq, Repr

/-- Loop-local mutable variables of `BarGame._loop` (plus the `shaping`
flag, which lives on the object but is driven by the loop).
`yellowGoneSince = 0` is the code's sentinel for "not currently absent". -/
structure BarState where
  clicking : Bool
  shaping : Bool
  yellowGoneSince : ℚ
  lastShapeClick : ℚ
deriving DecidableEq, Repr

/-- Per-tick inputs of `BarGame._loop`: the activation flag, focus oracle,
wall clock, monitor rectangle, the yellow-mask statistics (pixel count and
5th/95th percentile extents), the white-mask statistics (count and median
row), and the shaping-click jitter draws. -/
structure BarInput where
  active : Bool
  focused : Bool
  now : ℚ
  monLeft : ℤ
  monTop : ℤ
  monWidth : ℤ
  monHeight : ℤ
  yellowCount : ℕ
  yMin : ℤ
  yMax : ℤ
  whiteCount : ℕ
  whiteCy : ℤ
  jx : ℤ
  jy : ℤ
deriving DecidableEq, Repr

/-- Target-zone commit row: `yellow_cy = y_min + int((y_max - y_min) * 0.625)`
(`0.625 = 5/8` is exact in binary floating point). -/
def yellowCenterOf (i : BarInput) : ℤ :=
  i.yMin + Int.tdiv ((i.yMax - i.yMin) * 5) 8

/-- Deadband: `bar_half = max((y_max - y_min) // 2, 1)`;
`deadband = max(5, bar_half // 4)` (Python `//` is floor division). -/
def deadbandOf (i : BarInput) : ℤ :=
  max 5 (Int.fdiv (max (Int.fdiv (i.yMax - i.yMin) 2) 1) 4)

/-- One iteration of `BarGame._loop`, in source order: the inactive/unfocused
branch (release held button, clear state, sleep 50 ms), the shaping branch
(release held button, then a jittered click every ≥ 0.15 s), the
yellow-absent branch (release, debounce 1.0 s into shaping), and the
tracking branch (deadband comparison of the white marker's median row
against the target commit row).  GUI overlay calls are not modelled. -/
def barTick (s : BarState) (i : BarInput) : BarState × List BEvent :=
  if ¬(i.active ∧ i.focused) then
    ({ clicking := false, shaping := false, yellowGoneSince := 0,
       lastShapeClick := s.lastShapeClick },
     (if s.clicking then [BEvent.up] else []) ++ [BEvent.sleep (1/20)])
  else if s.shaping then
    let evs := if s.clicking then [BEvent.up] else []
    if i.now - s.lastShapeClick ≥ 3/20 then
      let cx := i.monLeft + pytrunc ((i.monWidth : ℚ) * (3/5)) + i.jx
      let cy := i.monTop + pytrunc ((i.monHeight : ℚ) * (1/2)) + i.jy
      ({ s with clicking := false, lastShapeClick := i.now },
       evs ++ [BEvent.downAt cx cy, BEvent.sleep (3/100), BEvent.upAt cx cy])
    else ({ s with clicking := false }, evs)
  else if i.yellowCount < 20 then
    let evs := if s.clicking then [BEvent.up] else []
    if s.yellowGoneSince = 0 then
      ({ s with clicking := false, yellowGoneSince := i.now }, evs)
    else if i.now - s.yellowGoneSince ≥ 1 then
      ({ s with clicking := false, shaping := true, lastShapeClick := 0 }, evs)
    else ({ s with clicking := false }, evs)
  else
    let s1 := { s with yellowGoneSince := 0 }
    if i.whiteCount ≤ 5 then (s1, [])
    else if i.whiteCy > yellowCenterOf i + deadbandOf i then
      if ¬s.clicking then ({ s1 with clicking := true }, [BEvent.down])
      else (s1, [])
    else if i.whiteCy < yellowCenterOf i - deadbandOf i then
      if s.clicking then ({ s1 with clicking := false }, [BEvent.up])
      else (s1, [])
    else (s1, [])

/-! ## CircleDetector blob finder (`CircleDetector._find_targets`) -/

/-- Measurements cv2 reports for one external contour of the cleaned mask:
`cv2.contourArea` (float), `cv2.boundingRect` width/height (ints), and
`cv2.minEnclosingCircle` centre/radius (floats). -/
structure Region where
  area : ℚ
  w : ℤ
  h : ℤ
  cx : ℚ
  cy : ℚ
  radius : ℚ
deriving DecidableEq, Repr

/-- `min_area` as set in `CircleDetector.__init__`. -/
def min_area : ℚ := 40

/-- Bounding-box aspect ratio: `max(w_r, h_r) / min(w_r, h_r)`. -/
def aspectRatio (r : Region) : ℚ := ((max r.w r.h : ℤ) : ℚ) / ((min r.w r.h : ℤ) : ℚ)

/-- Fill ratio against the minimal enclosing circle:
`area / (np.pi * radius * radius)`; `pi` abstracts the float `np.pi`. -/
def fillRatio (pi : ℚ) (r : Region) : ℚ := r.area / (pi * r.radius * r.radius)

/-- Edge margin in x: `margin_x = int(w_frame * 0.20)`. -/
def marginXOf (wFrame : ℤ) : ℤ := pytrunc ((wFrame : ℚ) * (1/5))

/-- Edge margin in y: `margin_y = int(h_frame * 0.10)`. -/
def marginYOf (hFrame : ℤ) : ℤ := pytrunc ((hFrame : ℚ) * (1/10))

/-- The filter chain of `CircleDetector._find_targets`, in source order:
area, degenerate bounding box, aspect ratio (`max/min > 2.0`), enclosing
radius (`radius < 5`), fill ratio (`area / (pi * r * r) < 0.20`), and the
edge margins `margin_x = int(w_frame * 0.20)`, `margin_y = int(h_frame * 0.10)`.
`pi` abstracts the float constant `np.pi`. -/
def keepRegion (pi : ℚ) (wFrame hFrame : ℤ) (r : Region) : Bool :=
  if r.area < min_area then false
  else if r.w = 0 ∨ r.h = 0 then false
  else if aspectRatio r > 2 then false
  else if r.radius < 5 then false
  else if fillRatio pi r < 1/5 then false
  else if r.cx < (marginXOf wFrame : ℚ) ∨
          r.cx > (wFrame : ℚ) - (marginXOf wFrame : ℚ) then false
  else if r.cy < (marginYOf hFrame : ℚ) ∨
          r.cy > (hFrame : ℚ) - (marginYOf hFrame : ℚ) then false
  else true

/-- `CircleDetector._find_targets`: keeps the contours passing every filter
and returns `(int(cx), int(cy), area)` triples (unordered; source order of
the contour list is preserved). -/
def findTargets (pi : ℚ) (wFrame hFrame : ℤ) (rs : List Region) :
    List (ℤ × ℤ × ℚ) :=
  (rs.filter (keepRegion pi wFrame hFrame)).map
    (fun r => (pytrunc r.cx, pytrunc r.cy, r.area))

/-! ## CircleDetector state machine (`CircleDetector._loop`) -/

/-- The `state` string of `CircleDetector._loop`. -/
inductive CirclePhase where
  | scan
  | track
  | ready
  | cooldown
deriving DecidableEq, Repr

/-- Loop-local mutable variables of `CircleDetector._loop` (the GUI-only
`ring_shown` flag is not modelled). -/
structure CircleState where
  phase : CirclePhase
  cooldownEnd : ℚ
  greenSeenAt : ℚ
  lostFrames : ℕ
  trackX : ℤ
  trackY : ℤ
  trackStart : ℚ
deriving DecidableEq, Repr

/-- A blob candidate as produced by `_find_targets` on the 0.5×-downscaled
frame: `(cx, cy, area)`. -/
structure Target where
  x : ℤ
  y : ℤ
  area : ℚ
deriving DecidableEq, Repr

/-- Per-tick inputs of `CircleDetector._loop`: activation flag, focus
oracle, wall clock, the monitor rectangle, and the white/green candidate
lists the two `_find_targets` calls would return on this tick's frame. -/
structure CircleInput where
  active : Bool
  focused : Bool
  now : ℚ
  monLeft : ℤ
  monTop : ℤ
  monHeight : ℤ
  whites : List Target
  greens : List Target
deriving DecidableEq, Repr

/-- Observable effects of one `CircleDetector._loop` iteration: the
`inp.move_to` call of SCAN, the `inp.click` call of READY (carrying the
arguments `track_x, track_y` it is invoked with), and sleeps. -/
inductive CEvent where
  | moveTo (x y : ℤ)
  | click (x y : ℤ)
  | sleep (t : ℚ)
deriving DecidableEq, Repr

/-- `green_delay = 0.02 * (mon['height'] / 1080)`. -/
def greenDelay (monHeight : ℤ) : ℚ := (2/100) * ((monHeight : ℚ) / 1080)

/-- `whites.sort(key=lambda t: t[2], reverse=True); whites[0]`: a stable
descending sort by area, so the head is the earliest candidate of maximal
area.  Modelled as a fold keeping the current element unless a strictly
larger area appears. -/
def largestTarget (t0 : Target) (ts : List Target) : Target :=
  ts.foldl (fun best t => if t.area > best.area then t else best) t0

/-- TRACK's proximity filter: the detector coordinates are mapped back to
virtual-desktop pixels (`int(g * inv_scale) + mon_origin` with
`inv_scale = 2.0`) and kept when the Euclidean distance to the tracked
point is below 150; `sqrt d < 150` is expressed as `d < 150² = 22500`. -/
def nearbyGreens (i : CircleInput) (tx ty : ℤ) : List Target :=
  i.greens.filter (fun g =>
    (2 * g.x + i.monLeft - tx) ^ 2 + (2 * g.y + i.monTop - ty) ^ 2 < 22500)

/-- One iteration of `CircleDetector._loop`: the inactive/unfocused branch
resets to SCAN and sleeps 50 ms; otherwise the SCAN/TRACK/READY/COOLDOWN
branches run and the iteration ends with `time.sleep(0.003)`.  GUI overlay
calls are not modelled, and the several `time.time()` reads of one
iteration are modelled as the single instant `now`. -/
def circleTick (s : CircleState) (i : CircleInput) : CircleState × List CEvent :=
  if ¬(i.active ∧ i.focused) then
    ({ s with phase := CirclePhase.scan }, [CEvent.sleep (1/20)])
  else
    match s.phase with
    | CirclePhase.scan =>
      match i.whites with
      | [] => (s, [CEvent.sleep (3/1000)])
      | w :: ws =>
        let best := largestTarget w ws
        let tx := 2 * best.x + i.monLeft
        let ty := 2 * best.y + i.monTop
        ({ s with phase := CirclePhase.track, trackX := tx, trackY := ty,
                  trackStart := i.now, lostFrames := 0 },
         [CEvent.moveTo tx ty, CEvent.sleep (3/1000)])
    | CirclePhase.track =>
      if (nearbyGreens i s.trackX s.trackY).isEmpty then
        if i.whites.isEmpty then
          let lost := s.lostFrames + 1
          if lost > 15 then
            ({ s with phase := CirclePhase.scan, lostFrames := lost },
             [CEvent.sleep (3/1000)])
          else ({ s with lostFrames := lost }, [CEvent.sleep (3/1000)])
        else ({ s with lostFrames := 0 }, [CEvent.sleep (3/1000)])
      else
        ({ s with phase := CirclePhase.ready, greenSeenAt := i.now },
         [CEvent.sleep (3/1000)])
    | CirclePhase.ready =>
      if i.now - s.greenSeenAt ≥ greenDelay i.monHeight then
        ({ s with phase := CirclePhase.cooldown, cooldownEnd := i.now + 2/5 },
         [CEvent.click s.trackX s.trackY, CEvent.sleep (3/1000)])
      else (s, [CEvent.sleep (3/1000)])
    | CirclePhase.cooldown =>
      if i.now ≥ s.cooldownEnd then
        ({ s with phase := CirclePhase.scan }, [CEvent.sleep (3/1000)])
      else (s, [CEvent.sleep (3/1000)])

/-- Fold `circleTick` over a list of tick inputs, accumulating events. -/
def circleRun (s : CircleState) : List CircleInput → CircleState × List CEvent
  | [] => (s, [])
  | i :: is =>
    let r := circleTick s i
    let rest := circleRun r.1 is
    (rest.1, r.2 ++ rest.2)

/-- Whether an event is an `inp.click` call. -/
def isClick (e : CEvent) : Bool :=
  match e with
  | CEvent.click _ _ => true
  | _ => false

/-- An event trace containing no `inp.click` call. -/
def clickFree (evs : List CEvent) : Bool := evs.all (fun e => ¬isClick e)

/-! ## Spec-side definitions for refinement comparison -/

/-- Modelled from the spec's words for the drag subdivision: Python's
`round` applied to the exact quotient `a / b` with `b > 0`; `round` uses
round-half-to-even. -/
def pyRound (a : ℤ) (b : ℕ) : ℤ :=
  let q := Int.fdiv a b
  let rem := a - q * b
  if 2 * rem < b then q
  else if 2 * rem > b then q + 1
  else if q % 2 = 0 then q else q + 1

/-- Modelled from the spec's words: the 1-based `i`-th delta
`round(total*i/steps) - round(total*(i-1)/steps)` claimed for `move_to`. -/
def specMoveDelta (total : ℤ) (steps : ℕ) (i : ℕ) : ℤ :=
  pyRound (total * i) steps - pyRound (total * (i - 1 : ℕ)) steps

/-! ## Theorems -/

/-- C10: for a target displacement below 2 pixels in magnitude on both
axes, `move_to` returns immediately: no relative-move event and no sleep is
emitted (empty event trace), leaving cursor and all state untouched. -/
theorem moveTo_small_displacement_noop (dx dy : ℤ) (steps : ℕ) (dur : ℚ)
    (hx : |dx| < 2) (hy : |dy| < 2) :
    move_to dx dy steps dur = [] := by
  simp [move_to, hx, hy]

/-- Witness for C10 at displacement `(1, -1)` with the default
`steps = 20`, `duration = 0.05`. -/
theorem moveTo_small_displacement_noop_witness :
    move_to 1 (-1) 20 (1/20) = [] :=
  moveTo_small_displacement_noop 1 (-1) 20 (1/20) (by decide) (by decide)

/-- C2 counterexample: with a virtual-desktop width extent of 1 pixel the
divisor `extent - 1` is 0 — nothing clamps the extent to a minimum of 2 —
and both `screen_to_abs` and `get_abs_coords` hit a division by zero
(`none`), refuting the claim at the concrete geometry
`{left 0, top 0, width 1, height 1080}`, point `(0, 0)`. -/
theorem screen_to_abs_extent_one_divides_by_zero :
    screen_to_abs ⟨0, 0, 1, 1080⟩ 0 0 = none ∧
    get_abs_coords ⟨0, 0, 1, 1080⟩ 0 0 = none := by
  constructor <;> rfl

/-- C2 amended: `screen_to_abs` and `get_abs_coords` divide by `extent - 1`
with no clamping; the conversion avoids division by zero exactly when
neither axis extent equals 1 (an extent of 0 divides by -1). -/
theorem screen_to_abs_defined_iff_extents_ne_one (v : VirtScreen) (x y px py : ℤ)
    (hw : v.width ≠ 1) (hh : v.height ≠ 1) :
    (screen_to_abs v x y).isSome = true ∧
    (get_abs_coords v px py).isSome = true := by
  have hw1 : ¬(v.width - 1 = 0) := by omega
  have hh1 : ¬(v.height - 1 = 0) := by omega
  constructor <;>
    simp [screen_to_abs, get_abs_coords, screenToAbsAxis, hw1, hh1]

/-- Witness for the amended C2 at a 1920×1080 virtual desktop. -/
theorem screen_to_abs_defined_iff_extents_ne_one_witness :
    (screen_to_abs ⟨0, 0, 1920, 1080⟩ 960 540).isSome = true ∧
    (get_abs_coords ⟨0, 0, 1920, 1080⟩ 37 (-5)).isSome = true :=
  ⟨(screen_to_abs_defined_iff_extents_ne_one ⟨0, 0, 1920, 1080⟩ 960 540 0 0
      (by decide) (by decide)).1,
   (screen_to_abs_defined_iff_extents_ne_one ⟨0, 0, 1920, 1080⟩ 0 0 37 (-5)
      (by decide) (by decide)).2⟩

/-- C1 counterexample: with the forge enabled and the smelting jiggle
active, the autoclicker toggle entrypoint activates the autoclicker without
deactivating the jiggle, leaving two activities active at once — the
entrypoint does not first deactivate the other activities. -/
theorem toggle_autoclicker_breaks_mutual_exclusion :
    countActive (toggleAutoclicker true true
      ⟨true, false, true, false, false, false, false⟩) = 2 ∧
    (toggleAutoclicker true true
      ⟨true, false, true, false, false, false, false⟩).jiggle = true ∧
    (toggleAutoclicker true true
      ⟨true, false, true, false, false, false, false⟩).autoclick = true := by
  decide

/-- C1 amended: the four pipeline-node activation entrypoints
(`_on_node_click` with idx 0 jiggle, 1 bar tracking, 2 shaping, 3 ring
detection) do first deactivate all other activities — including the
autoclicker — so whenever a node click takes its activation branch (its own
activity was off), exactly one activity is active afterwards; the
autoclicker toggle entrypoint (`_toggle_autoclicker`), however, activates
the autoclicker without deactivating anything. -/
theorem node_click_activation_exclusive (s : ModState) (force focused : Bool)
    (hen : s.forgeEnabled = true) (hfoc : force = true ∨ focused = true) :
    (s.jiggle = false →
      countActive (onNodeClick 0 force focused s) = 1 ∧
      (onNodeClick 0 force focused s).jiggle = true) ∧
    (¬(s.barActive = true ∧ s.barShaping = false) →
      countActive (onNodeClick 1 force focused s) = 1 ∧
      (onNodeClick 1 force focused s).barActive = true ∧
      (onNodeClick 1 force focused s).barShaping = false) ∧
    (s.barShaping = false →
      countActive (onNodeClick 2 force focused s) = 1 ∧
      (onNodeClick 2 force focused s).barShaping = true) ∧
    (s.circle = false →
      countActive (onNodeClick 3 force focused s) = 1 ∧
      (onNodeClick 3 force focused s).circle = true) := by
  cases s with
  | mk fe ap j ba bs c ac =>
    revert hen hfoc
    revert force focused fe ap j ba bs c ac
    decide

/-- Witness for the amended C1: from a state with everything on, clicking
the ring-detection node leaves exactly the ring detector active. -/
theorem node_click_activation_exclusive_witness :
    countActive (onNodeClick 3 true true
      ⟨true, false, true, true, false, false, true⟩) = 1 ∧
    (onNodeClick 3 true true
      ⟨true, false, true, true, false, false, true⟩).circle = true :=
  (node_click_activation_exclusive
      ⟨true, false, true, true, false, false, true⟩ true true
      (by decide) (Or.inl (by decide))).2.2.2 (by decide)

/-- C3: on a tick where the bar loop is inactive or the target application
is unfocused while the mouse button is held, the loop emits exactly the
button-up event followed by the 50 ms idle sleep — the release strictly
precedes the sleep — and goes idle with the button no longer held. -/
theorem bar_idle_releases_before_sleep (s : BarState) (i : BarInput)
    (hidle : ¬(i.active = true ∧ i.focused = true))
    (hheld : s.clicking = true) :
    (barTick s i).2 = [BEvent.up, BEvent.sleep (1/20)] ∧
    (barTick s i).1.clicking = false := by
  rw [barTick, if_pos hidle]
  simp [hheld]

/-- Witness for C3: deactivated mid-hold, the loop releases then sleeps. -/
theorem bar_idle_releases_before_sleep_witness :
    (barTick ⟨true, false, 0, 0⟩
      ⟨false, true, 0, 0, 0, 1920, 1080, 100, 10, 50, 20, 30, 0, 0⟩).2 =
      [BEvent.up, BEvent.sleep (1/20)] ∧
    (barTick ⟨true, false, 0, 0⟩
      ⟨false, true, 0, 0, 0, 1920, 1080, 100, 10, 50, 20, 30, 0, 0⟩).1.clicking = false :=
  bar_idle_releases_before_sleep ⟨true, false, 0, 0⟩
    ⟨false, true, 0, 0, 0, 1920, 1080, 100, 10, 50, 20, 30, 0, 0⟩
    (by simp) rfl

/-- C6: on a tracking tick with both the yellow target zone
(`yellowCount ≥ 20`) and the white marker (`whiteCount > 5`) detected,
with commit row `yellowCenterOf` and deadband `deadbandOf`
(`max(5, zone_half_height // 4)`): a marker row more than the deadband
beyond the commit row presses (or keeps) the button; more than the deadband
before it releases (or keeps released); within the deadband the held state
is exactly the previous tick's (hysteresis, no toggle). -/
theorem bar_deadband_hysteresis (s : BarState) (i : BarInput)
    (hact : i.active = true) (hfoc : i.focused = true)
    (hshape : s.shaping = false)
    (hyellow : 20 ≤ i.yellowCount) (hwhite : 5 < i.whiteCount) :
    (i.whiteCy > yellowCenterOf i + deadbandOf i →
      (barTick s i).1.clicking = true) ∧
    (i.whiteCy < yellowCenterOf i - deadbandOf i →
      (barTick s i).1.clicking = false) ∧
    (yellowCenterOf i - deadbandOf i ≤ i.whiteCy ∧
       i.whiteCy ≤ yellowCenterOf i + deadbandOf i →
      (barTick s i).1.clicking = s.clicking) := by
  have h1 : ¬¬(i.active = true ∧ i.focused = true) := by simp [hact, hfoc]
  have h2 : ¬(i.yellowCount < 20) := by omega
  have h3 : ¬(i.whiteCount ≤ 5) := by omega
  have hdb : (5 : ℤ) ≤ deadbandOf i := le_max_left _ _
  rw [barTick, if_neg h1, if_neg (by simp [hshape]), if_neg h2]
  refine ⟨fun hup => ?_, fun hdown => ?_, fun hin => ?_⟩
  · rw [if_neg h3, if_pos hup]
    cases hc : s.clicking <;> simp [hc]
  · rw [if_neg h3, if_neg (by omega), if_pos hdown]
    cases hc : s.clicking <;> simp [hc]
  · rw [if_neg h3, if_neg (by omega), if_neg (by omega)]

/-- Witness for C6 with zone rows 10..50 (commit row 35, deadband 5): a
marker at row 45 presses the button; a marker at row 37, inside the
deadband, leaves a held button held. -/
theorem bar_deadband_hysteresis_witness :
    (barTick ⟨false, false, 0, 0⟩
      ⟨true, true, 0, 0, 0, 1920, 1080, 100, 10, 50, 20, 45, 0, 0⟩).1.clicking = true ∧
    (barTick ⟨true, false, 0, 0⟩
      ⟨true, true, 0, 0, 0, 1920, 1080, 100, 10, 50, 20, 37, 0, 0⟩).1.clicking =
      (⟨true, false, 0, 0⟩ : BarState).clicking :=
  ⟨(bar_deadband_hysteresis ⟨false, false, 0, 0⟩
      ⟨true, true, 0, 0, 0, 1920, 1080, 100, 10, 50, 20, 45, 0, 0⟩
      rfl rfl rfl (by decide) (by decide)).1 (by decide),
   (bar_deadband_hysteresis ⟨true, false, 0, 0⟩
      ⟨true, true, 0, 0, 0, 1920, 1080, 100, 10, 50, 20, 37, 0, 0⟩
      rfl rfl rfl (by decide) (by decide)).2.2 (by decide)⟩

/-- Extracting the moves from the per-step move/sleep event pairs yields
exactly the per-step deltas. -/
theorem movesOf_flatMap (l : List ℕ) (f g : ℕ → ℤ) (c : ℚ) :
    movesOf (l.flatMap (fun i => [MoveEv.move (f i) (g i), MoveEv.sleep c])) =
    l.map (fun i => (f i, g i)) := by
  induction l with
  | nil => rfl
  | cons a t ih =>
    simp only [List.flatMap_cons, movesOf, List.filterMap_append] at *
    simp [ih]

/-- The first `j` code deltas telescope to `int(total * j / steps)`. -/
theorem sum_moveDelta (total : ℤ) (steps : ℕ) (j : ℕ) :
    ((List.range j).map (fun i => moveDelta total steps i)).sum =
    Int.tdiv (total * j) steps := by
  induction j with
  | zero => simp
  | succ k ih =>
    rw [List.range_succ, List.map_append, List.sum_append, ih]
    simp only [List.map_cons, List.map_nil, List.sum_cons, List.sum_nil,
      moveDelta]
    push_cast
    ring_nf

/-- C8 counterexample: at total displacement `(3, 0)` with `steps = 2`,
`move_to` emits the horizontal deltas `[1, 2]` (Python `int()` truncation),
whereas the claimed formula `round(total*i/steps) - round(total*(i-1)/steps)`
gives `[2, 1]` — the claimed i-th-delta equation fails at `i = 1`. -/
theorem moveTo_delta_formula_not_round :
    (movesOf (move_to 3 0 2 1)).map Prod.fst = [1, 2] ∧
    specMoveDelta 3 2 1 = 2 ∧ specMoveDelta 3 2 2 = 1 ∧
    (movesOf (move_to 3 0 2 1)).map Prod.fst ≠
      [specMoveDelta 3 2 1, specMoveDelta 3 2 2] := by
  decide

/-- C8 amended: for `steps ≥ 1` and a displacement not below 2 pixels in
magnitude on both axes, `move_to` issues exactly `steps` relative moves
whose 0-based `i`-th delta is
`int(total*(i+1)/steps) - int(total*i/steps)` per axis (truncation toward
zero, Python `int()`, not `round`); every cumulative sum after `j` steps
equals `int(total*j/steps)`, so no intermediate overshoot occurs and the
final sum is exactly the total displacement. -/
theorem move_to_deltas_truncate_and_telescope (dx dy : ℤ) (steps : ℕ) (dur : ℚ)
    (hs : 1 ≤ steps) (hbig : ¬(|dx| < 2 ∧ |dy| < 2)) :
    movesOf (move_to dx dy steps dur) =
      (List.range steps).map
        (fun i => (moveDelta dx steps i, moveDelta dy steps i)) ∧
    (movesOf (move_to dx dy steps dur)).length = steps ∧
    (∀ j, j ≤ steps →
      (((movesOf (move_to dx dy steps dur)).take j).map Prod.fst).sum =
        Int.tdiv (dx * j) steps ∧
      (((movesOf (move_to dx dy steps dur)).take j).map Prod.snd).sum =
        Int.tdiv (dy * j) steps) ∧
    ((movesOf (move_to dx dy steps dur)).map Prod.fst).sum = dx ∧
    ((movesOf (move_to dx dy steps dur)).map Prod.snd).sum = dy := by
  have hm : movesOf (move_to dx dy steps dur) =
      (List.range steps).map
        (fun i => (moveDelta dx steps i, moveDelta dy steps i)) := by
    rw [move_to, if_neg hbig]
    exact movesOf_flatMap _ _ _ _
  have hs0 : (steps : ℤ) ≠ 0 := by exact_mod_cast Nat.one_le_iff_ne_zero.mp hs
  have htake : ∀ j, j ≤ steps →
      (((movesOf (move_to dx dy steps dur)).take j).map Prod.fst).sum =
        Int.tdiv (dx * j) steps ∧
      (((movesOf (move_to dx dy steps dur)).take j).map Prod.snd).sum =
        Int.tdiv (dy * j) steps := by
    intro j hj
    rw [hm, ← List.map_take, List.take_range, min_eq_left hj]
    constructor <;>
      · rw [List.map_map]
        simpa [Function.comp] using sum_moveDelta _ steps j
  refine ⟨hm, by rw [hm]; simp, htake, ?_, ?_⟩
  · rw [hm, List.map_map]
    have h := sum_moveDelta dx steps steps
    rw [Int.mul_tdiv_cancel _ hs0] at h
    simpa [Function.comp] using h
  · rw [hm, List.map_map]
    have h := sum_moveDelta dy steps steps
    rw [Int.mul_tdiv_cancel _ hs0] at h
    simpa [Function.comp] using h

/-- Witness for the amended C8 at displacement `(5, 0)`, `steps = 2`:
two moves whose horizontal deltas sum to exactly 5. -/
theorem move_to_deltas_truncate_and_telescope_witness :
    ((movesOf (move_to 5 0 2 1)).map Prod.fst).sum = 5 ∧
    (movesOf (move_to 5 0 2 1)).length = 2 :=
  ⟨(move_to_deltas_truncate_and_telescope 5 0 2 1 (by decide)
      (by decide)).2.2.2.1,
   (move_to_deltas_truncate_and_telescope 5 0 2 1 (by decide)
      (by decide)).2.1⟩

/-- Unfolding of `keepRegion`: a contour is kept exactly when every filter
condition of `_find_targets`, in source form, is false. -/
theorem keepRegion_true_iff (pi : ℚ) (wF hF : ℤ) (r : Region) :
    keepRegion pi wF hF r = true ↔
      ¬(r.area < min_area) ∧ ¬(r.w = 0 ∨ r.h = 0) ∧ ¬(aspectRatio r > 2) ∧
      ¬(r.radius < 5) ∧ ¬(fillRatio pi r < 1/5) ∧
      ¬(r.cx < (marginXOf wF : ℚ) ∨
        r.cx > (wF : ℚ) - (marginXOf wF : ℚ)) ∧
      ¬(r.cy < (marginYOf hF : ℚ) ∨
        r.cy > (hF : ℚ) - (marginYOf hF : ℚ)) := by
  rw [keepRegion]
  split_ifs <;> simp_all

/-- C7: every candidate `_find_targets` returns comes from a contour
passing all shape filters — area at least `min_area`, aspect ratio at most
2, fill ratio at least 0.20, centroid inside both edge margins; moreover a
1×50 bounding-box contour (aspect 50) is always rejected, as is any
contour whose area is exactly 15 percent of its enclosing circle. -/
theorem find_targets_shape_filters (pi : ℚ) (wF hF : ℤ) (rs : List Region)
    (hpi : 0 < pi) :
    (∀ t ∈ findTargets pi wF hF rs, ∃ r ∈ rs,
        min_area ≤ r.area ∧ aspectRatio r ≤ 2 ∧ 1/5 ≤ fillRatio pi r ∧
        ((marginXOf wF : ℚ) ≤ r.cx ∧ r.cx ≤ (wF : ℚ) - (marginXOf wF : ℚ)) ∧
        ((marginYOf hF : ℚ) ≤ r.cy ∧ r.cy ≤ (hF : ℚ) - (marginYOf hF : ℚ)) ∧
        t = (pytrunc r.cx, pytrunc r.cy, r.area)) ∧
    (∀ r ∈ rs, r.w = 1 → r.h = 50 → keepRegion pi wF hF r = false) ∧
    (∀ r ∈ rs, r.area = 3/20 * (pi * r.radius * r.radius) →
        keepRegion pi wF hF r = false) := by
  refine ⟨?_, ?_, ?_⟩
  · intro t ht
    rw [findTargets] at ht
    obtain ⟨r, hrf, rfl⟩ := List.mem_map.mp ht
    obtain ⟨hrs, hk⟩ := List.mem_filter.mp hrf
    rw [keepRegion_true_iff] at hk
    obtain ⟨hA, _, hC, _, hE, hFx, hFy⟩ := hk
    push_neg at hFx hFy
    exact ⟨r, hrs, not_lt.mp hA, not_lt.mp hC, not_lt.mp hE, hFx, hFy, rfl⟩
  · intro r _ hw hh
    rw [keepRegion]
    split_ifs with h1 h2 h3 h4 h5 h6 h7 <;> try rfl
    exact absurd (by rw [aspectRatio, hw, hh]; norm_num) h3
  · intro r _ harea
    rw [keepRegion]
    split_ifs with h1 h2 h3 h4 h5 h6 h7 <;> try rfl
    exfalso
    apply h5
    have hr5 : (5 : ℚ) ≤ r.radius := not_lt.mp h4
    have h0 : (0 : ℚ) < r.radius := lt_of_lt_of_le (by norm_num) hr5
    have hpos : (0 : ℚ) < pi * r.radius * r.radius :=
      mul_pos (mul_pos hpi h0) h0
    rw [fillRatio, harea, mul_div_assoc, div_self (ne_of_gt hpos), mul_one]
    norm_num

/-- Witness for C7: a 10×10 contour of area 100, radius 5, centred at
(50, 50) in a 100×100 frame passes every filter (with `pi := 3`); a 1×50
contour and a 15-percent-fill contour are rejected. -/
theorem find_targets_shape_filters_witness :
    (∃ r ∈ [(⟨100, 10, 10, 50, 50, 5⟩ : Region)],
        min_area ≤ r.area ∧ aspectRatio r ≤ 2 ∧ 1/5 ≤ fillRatio 3 r ∧
        ((marginXOf 100 : ℚ) ≤ r.cx ∧ r.cx ≤ (100 : ℚ) - (marginXOf 100 : ℚ)) ∧
        ((marginYOf 100 : ℚ) ≤ r.cy ∧ r.cy ≤ (100 : ℚ) - (marginYOf 100 : ℚ)) ∧
        ((50 : ℤ), (50 : ℤ), (100 : ℚ)) = (pytrunc r.cx, pytrunc r.cy, r.area)) ∧
    keepRegion 3 100 100 ⟨100, 1, 50, 50, 50, 30⟩ = false ∧
    keepRegion 3 100 100 ⟨45, 10, 10, 50, 50, 10⟩ = false := by
  refine ⟨?_, ?_, ?_⟩
  · apply (find_targets_shape_filters 3 100 100
        [(⟨100, 10, 10, 50, 50, 5⟩ : Region)] (by norm_num)).1
    have hk : keepRegion 3 100 100 (⟨100, 10, 10, 50, 50, 5⟩ : Region) = true := by
      rw [keepRegion_true_iff]
      norm_num [aspectRatio, fillRatio, marginXOf, marginYOf, min_area, pytrunc]
    rw [findTargets]
    norm_num [List.filter_cons, hk, pytrunc]
  · exact (find_targets_shape_filters 3 100 100
        [(⟨100, 1, 50, 50, 50, 30⟩ : Region)] (by norm_num)).2.1 _
      (by simp) rfl rfl
  · exact (find_targets_shape_filters 3 100 100
        [(⟨45, 10, 10, 50, 50, 10⟩ : Region)] (by norm_num)).2.2 _
      (by simp) (by norm_num)

/-- C9 (implicit): `_find_targets` also rejects any contour whose minimal
enclosing circle has radius below 5 — regardless of the other filters — so
every returned candidate comes from a contour of radius at least 5. -/
theorem find_targets_radius_floor (pi : ℚ) (wF hF : ℤ) (rs : List Region) :
    (∀ t ∈ findTargets pi wF hF rs, ∃ r ∈ rs,
        t = (pytrunc r.cx, pytrunc r.cy, r.area) ∧ 5 ≤ r.radius) ∧
    (∀ r : Region, r.radius < 5 → keepRegion pi wF hF r = false) := by
  refine ⟨?_, ?_⟩
  · intro t ht
    rw [findTargets] at ht
    obtain ⟨r, hrf, rfl⟩ := List.mem_map.mp ht
    obtain ⟨hrs, hk⟩ := List.mem_filter.mp hrf
    rw [keepRegion_true_iff] at hk
    exact ⟨r, hrs, rfl, not_lt.mp hk.2.2.2.1⟩
  · intro r hrad
    rw [keepRegion]
    split_ifs <;> rfl

/-- Witness for C9: a radius-4 contour that passes area, aspect, fill and
margin filters is still rejected. -/
theorem find_targets_radius_floor_witness :
    keepRegion 3 100 100 ⟨100, 10, 10, 50, 50, 4⟩ = false :=
  (find_targets_radius_floor 3 100 100 []).2 _ (by norm_num)


/-- In SCAN, ticks whose frames contain no white candidate leave the loop
state untouched and emit no click. -/
theorem circleRun_scan_quiet (inputs : List CircleInput) :
    ∀ s : CircleState, s.phase = CirclePhase.scan →
    (∀ i ∈ inputs, i.whites = []) →
    (circleRun s inputs).1 = s ∧ clickFree (circleRun s inputs).2 = true := by
  induction inputs with
  | nil => intro s _ _; exact ⟨rfl, rfl⟩
  | cons i is ih =>
    intro s hs hq
    obtain ⟨p, ce, gs, lf, tx, ty, ts⟩ := s
    simp only [CircleState.mk.injEq] at hs
    subst hs
    have hw : i.whites = [] := hq i (List.mem_cons_self _ _)
    have ih' := ih ⟨CirclePhase.scan, ce, gs, lf, tx, ty, ts⟩ rfl
      (fun j hj => hq j (List.mem_cons_of_mem _ hj))
    by_cases hf : i.active = true ∧ i.focused = true
    · simp only [circleRun, circleTick, if_neg (not_not_intro hf), hw]
      simpa [clickFree, isClick] using ih'
    · simp only [circleRun, circleTick, if_pos hf]
      simpa [clickFree, isClick] using ih'

/-- In TRACK with the loss counter at most 15, a run of quiet ticks (no
nearby green, no white) counts up the loss counter and falls back to SCAN
exactly when 16 consecutive quiet ticks have accumulated, clicking never. -/
theorem circleRun_track_quiet (inputs : List CircleInput) :
    ∀ s : CircleState, s.phase = CirclePhase.track → s.lostFrames ≤ 15 →
    (∀ i ∈ inputs, i.active = true ∧ i.focused = true ∧
        nearbyGreens i s.trackX s.trackY = [] ∧ i.whites = []) →
    ((circleRun s inputs).1.phase =
      if 16 ≤ s.lostFrames + inputs.length then CirclePhase.scan
      else CirclePhase.track) ∧
    clickFree (circleRun s inputs).2 = true := by
  induction inputs with
  | nil =>
    intro s hs hlost _
    have hno : ¬(16 ≤ s.lostFrames + ([] : List CircleInput).length) := by
      simp only [List.length_nil, Nat.add_zero]
      omega
    refine ⟨?_, rfl⟩
    rw [if_neg hno]
    exact hs
  | cons i is ih =>
    intro s hs hlost hq
    obtain ⟨p, ce, gs, lf, tx, ty, ts⟩ := s
    simp only [CircleState.mk.injEq] at hs
    subst hs
    simp only at hlost
    obtain ⟨ha, hf, hg, hw⟩ := hq i (List.mem_cons_self _ _)
    have haf : i.active = true ∧ i.focused = true := ⟨ha, hf⟩
    have hq' := fun j hj => hq j (List.mem_cons_of_mem i hj)
    simp only [circleRun, circleTick, if_neg (not_not_intro haf), hg, hw,
      List.isEmpty_nil, if_true]
    by_cases htr : lf + 1 > 15
    · rw [if_pos htr]
      have hsc := circleRun_scan_quiet is
        ⟨CirclePhase.scan, ce, gs, lf + 1, tx, ty, ts⟩ rfl
        (fun j hj => (hq' j hj).2.2.2)
      have h16 : 16 ≤ lf + (i :: is).length := by
        simp only [List.length_cons]
        omega
      rw [hsc.1]
      refine ⟨by rw [if_pos h16], ?_⟩
      simpa [clickFree, isClick] using hsc.2
    · rw [if_neg htr]
      have ih' := ih ⟨CirclePhase.track, ce, gs, lf + 1, tx, ty, ts⟩ rfl
        (by omega : lf + 1 ≤ 15) (fun j hj => hq' j hj)
      refine ⟨?_, ?_⟩
      · rw [ih'.1]
        by_cases h16 : 16 ≤ lf + 1 + is.length
        · rw [if_pos h16, if_pos (by simp only [List.length_cons]; omega)]
        · rw [if_neg h16, if_neg (by simp only [List.length_cons]; omega)]
      · simpa [clickFree, isClick] using ih'.2

/-- C4: in TRACK, as long as no green blob lies within 150 px of the
tracked point: a tick with a white blob visible resets the loss counter to
0 and stays in TRACK; and from a loss counter of 0, a run of 16 ticks with
the white ring absent (more than 15 consecutive misses) returns the loop
to SCAN — with no click issued on any of these ticks. -/
theorem track_white_reset_and_stale_scan (s : CircleState)
    (hs : s.phase = CirclePhase.track) :
    (∀ i : CircleInput, i.active = true → i.focused = true →
      nearbyGreens i s.trackX s.trackY = [] → i.whites ≠ [] →
      (circleTick s i).1.lostFrames = 0 ∧
      (circleTick s i).1.phase = CirclePhase.track ∧
      clickFree (circleTick s i).2 = true) ∧
    (∀ inputs : List CircleInput, s.lostFrames = 0 → inputs.length = 16 →
      (∀ i ∈ inputs, i.active = true ∧ i.focused = true ∧
        nearbyGreens i s.trackX s.trackY = [] ∧ i.whites = []) →
      (circleRun s inputs).1.phase = CirclePhase.scan ∧
      clickFree (circleRun s inputs).2 = true) := by
  obtain ⟨p, ce, gs, lf, tx, ty, ts⟩ := s
  simp only [CircleState.mk.injEq] at hs
  subst hs
  refine ⟨?_, ?_⟩
  · intro i ha hf hg hwn
    have haf : i.active = true ∧ i.focused = true := ⟨ha, hf⟩
    cases hwc : i.whites with
    | nil => exact absurd hwc hwn
    | cons w ws =>
      simp only [circleTick, if_neg (not_not_intro haf), hg,
        List.isEmpty_nil, if_true, hwc]
      simp [clickFree, isClick]
  · intro inputs hlost0 hlen hq
    simp only at hlost0
    subst hlost0
    have h := circleRun_track_quiet inputs
      ⟨CirclePhase.track, ce, gs, 0, tx, ty, ts⟩ rfl
      (show (0 : ℕ) ≤ 15 by omega) hq
    refine ⟨?_, h.2⟩
    rw [h.1, if_pos (show 16 ≤ 0 + inputs.length by omega)]

/-- Witness for C4: from TRACK at point (100, 100) with the counter at 0,
one white-visible tick stays in TRACK with counter 0; 16 consecutive
all-quiet ticks end in SCAN; no click is emitted either way. -/
theorem track_white_reset_and_stale_scan_witness :
    ((circleTick ⟨CirclePhase.track, 0, 0, 0, 100, 100, 0⟩
        ⟨true, true, 0, 0, 0, 1080, [⟨1, 1, 5⟩], []⟩).1.lostFrames = 0 ∧
      (circleTick ⟨CirclePhase.track, 0, 0, 0, 100, 100, 0⟩
        ⟨true, true, 0, 0, 0, 1080, [⟨1, 1, 5⟩], []⟩).1.phase = CirclePhase.track ∧
      clickFree (circleTick ⟨CirclePhase.track, 0, 0, 0, 100, 100, 0⟩
        ⟨true, true, 0, 0, 0, 1080, [⟨1, 1, 5⟩], []⟩).2 = true) ∧
    ((circleRun ⟨CirclePhase.track, 0, 0, 0, 100, 100, 0⟩
        (List.replicate 16 ⟨true, true, 0, 0, 0, 1080, [], []⟩)).1.phase =
        CirclePhase.scan ∧
      clickFree (circleRun ⟨CirclePhase.track, 0, 0, 0, 100, 100, 0⟩
        (List.replicate 16 ⟨true, true, 0, 0, 0, 1080, [], []⟩)).2 = true) :=
  ⟨(track_white_reset_and_stale_scan ⟨CirclePhase.track, 0, 0, 0, 100, 100, 0⟩
      rfl).1 ⟨true, true, 0, 0, 0, 1080, [⟨1, 1, 5⟩], []⟩ rfl rfl rfl
      (by decide),
   (track_white_reset_and_stale_scan ⟨CirclePhase.track, 0, 0, 0, 100, 100, 0⟩
      rfl).2 (List.replicate 16 ⟨true, true, 0, 0, 0, 1080, [], []⟩) rfl
      (by decide) (by decide)⟩

/-- C5: in READY, while the elapsed time since the green sighting is below
`green_delay = 0.02 * (monitor_height / 1080)` the tick changes nothing
and issues no click; once it is at least `green_delay`, the tick issues
exactly one click, at the tracked point, and enters COOLDOWN with deadline
`now + 0.4`; COOLDOWN ticks ignore all detections, never click, and
return to SCAN exactly when the deadline has passed. -/
theorem ready_click_once_then_cooldown (s : CircleState) (i : CircleInput)
    (ha : i.active = true) (hf : i.focused = true) :
    (s.phase = CirclePhase.ready →
      i.now - s.greenSeenAt < greenDelay i.monHeight →
      (circleTick s i).1 = s ∧ clickFree (circleTick s i).2 = true) ∧
    (s.phase = CirclePhase.ready →
      i.now - s.greenSeenAt ≥ greenDelay i.monHeight →
      (circleTick s i).2 = [CEvent.click s.trackX s.trackY,
        CEvent.sleep (3/1000)] ∧
      (circleTick s i).1.phase = CirclePhase.cooldown ∧
      (circleTick s i).1.cooldownEnd = i.now + 2/5 ∧
      (circleTick s i).1.trackX = s.trackX ∧
      (circleTick s i).1.trackY = s.trackY) ∧
    (s.phase = CirclePhase.cooldown →
      clickFree (circleTick s i).2 = true ∧
      (circleTick s i).1 =
        { s with phase := if s.cooldownEnd ≤ i.now then CirclePhase.scan
                          else CirclePhase.cooldown }) := by
  obtain ⟨p, ce, gs, lf, tx, ty, ts⟩ := s
  have haf : i.active = true ∧ i.focused = true := ⟨ha, hf⟩
  refine ⟨?_, ?_, ?_⟩
  · intro hs hlt
    simp only [CircleState.mk.injEq] at hs
    subst hs
    simp only [circleTick, if_neg (not_not_intro haf)]
    rw [if_neg (not_le.mpr hlt)]
    exact ⟨rfl, rfl⟩
  · intro hs hge
    simp only [CircleState.mk.injEq] at hs
    subst hs
    simp only [circleTick, if_neg (not_not_intro haf)]
    rw [if_pos hge]
    exact ⟨rfl, rfl, rfl, rfl, rfl⟩
  · intro hs
    simp only [CircleState.mk.injEq] at hs
    subst hs
    simp only [circleTick, if_neg (not_not_intro haf)]
    by_cases hcd : ce ≤ i.now
    · rw [if_pos hcd, if_pos hcd]
      exact ⟨rfl, rfl⟩
    · rw [if_neg hcd, if_neg hcd]
      exact ⟨rfl, rfl⟩

/-- Witness for C5, on a 1080-row monitor (`green_delay = 1/50 s`): 0.01 s
after the green sighting no click and no state change occur; at 1 s the
tick clicks the tracked point (50, 60) once and sets the 0.4 s cooldown;
a COOLDOWN tick before the deadline stays in COOLDOWN without clicking. -/
theorem ready_click_once_then_cooldown_witness :
    ((circleTick ⟨CirclePhase.ready, 0, 0, 0, 50, 60, 0⟩
        ⟨true, true, 1/100, 0, 0, 1080, [], []⟩).1 =
      ⟨CirclePhase.ready, 0, 0, 0, 50, 60, 0⟩ ∧
      clickFree (circleTick ⟨CirclePhase.ready, 0, 0, 0, 50, 60, 0⟩
        ⟨true, true, 1/100, 0, 0, 1080, [], []⟩).2 = true) ∧
    ((circleTick ⟨CirclePhase.ready, 0, 0, 0, 50, 60, 0⟩
        ⟨true, true, 1, 0, 0, 1080, [], []⟩).2 =
      [CEvent.click 50 60, CEvent.sleep (3/1000)] ∧
      (circleTick ⟨CirclePhase.ready, 0, 0, 0, 50, 60, 0⟩
        ⟨true, true, 1, 0, 0, 1080, [], []⟩).1.cooldownEnd = 1 + 2/5) ∧
    (circleTick ⟨CirclePhase.cooldown, 7/5, 0, 0, 50, 60, 0⟩
        ⟨true, true, 11/10, 0, 0, 1080, [], []⟩).1 =
      { (⟨CirclePhase.cooldown, 7/5, 0, 0, 50, 60, 0⟩ : CircleState) with
          phase := if (7/5 : ℚ) ≤ 11/10 then CirclePhase.scan
                   else CirclePhase.cooldown } := by
  have h1 := (ready_click_once_then_cooldown
      ⟨CirclePhase.ready, 0, 0, 0, 50, 60, 0⟩
      ⟨true, true, 1/100, 0, 0, 1080, [], []⟩ rfl rfl).1 rfl
      (by norm_num [greenDelay])
  have h2 := (ready_click_once_then_cooldown
      ⟨CirclePhase.ready, 0, 0, 0, 50, 60, 0⟩
      ⟨true, true, 1, 0, 0, 1080, [], []⟩ rfl rfl).2.1 rfl
      (by norm_num [greenDelay])
  have h3 := (ready_click_once_then_cooldown
      ⟨CirclePhase.cooldown, 7/5, 0, 0, 50, 60, 0⟩
      ⟨true, true, 11/10, 0, 0, 1080, [], []⟩ rfl rfl).2.2 rfl
  exact ⟨⟨h1.1, h1.2⟩, ⟨h2.1, h2.2.2.1⟩, h3.2⟩
